import Mathlib

/-
Verification development for the finance-analyzer repository.

The embedding models the three core stages of the pipeline:
  * src/pdf_to_csv.py      : two-stage regex extraction of transactions
  * src/Data_enrichment.py : normalization, classification, calendar derivation
  * src/insights.py        : month-scoped insight queries
  * src/charts.py          : aggregate_data

Python floats are modelled as rationals, pandas missing values (None, NaN,
NaT, pd.NA) as Option.none, raised exceptions as Except.error, and
DataFrames as Option (List Row) so that a Python None dataframe is
distinguishable from an empty one.
-/

/-! ### Character classes and basic string helpers -/

/-- ASCII test mirroring the regex class [A-Za-z]. -/
def isAsciiAlpha (c : Char) : Bool :=
  (('A' ≤ c) && (c ≤ 'Z')) || (('a' ≤ c) && (c ≤ 'z'))

/-- ASCII test mirroring the regex class [0-9] (and the ASCII core of \d). -/
def isAsciiDigit (c : Char) : Bool :=
  ('0' ≤ c) && (c ≤ '9')

/-- Whitespace class mirroring the ASCII core of Python \s and str.strip:
space, tab, newline, carriage return, vertical tab and form feed. -/
def isPySpace (c : Char) : Bool :=
  c = ' ' || c = '\t' || c = '\n' || c = '\r' || c = '\x0b' || c = '\x0c'

/-- Literal-prefix test on character lists, as used by re.match for a literal
and by str.startswith. -/
def litPrefix : List Char → List Char → Bool
  | [], _ => true
  | _ :: _, [] => false
  | p :: ps, c :: cs => (p == c) && litPrefix ps cs

/-- Substring test mirroring the Python expression k in m for strings. -/
def containsSub (hay pat : List Char) : Bool :=
  match hay with
  | [] => litPrefix pat []
  | _ :: rest => litPrefix pat hay || containsSub rest pat

/-- Model of Python str.strip(): drop leading and trailing whitespace. -/
def pyStrip (cs : List Char) : List Char :=
  ((cs.dropWhile isPySpace).reverse.dropWhile isPySpace).reverse

/-- Collapse every run of whitespace to a single space character, the effect
of re.sub on the pattern backslash-s-plus with a single space replacement. -/
def collapseWs : List Char → List Char
  | [] => []
  | c :: cs =>
    if isPySpace c then
      match collapseWs cs with
      | ' ' :: rest => ' ' :: rest
      | rest => ' ' :: rest
    else
      c :: collapseWs cs

/-- Model of Python str.lower restricted to ASCII letters, as applied to
merchant strings. -/
def pyLower (cs : List Char) : List Char :=
  cs.map fun c => if ('A' ≤ c) && (c ≤ 'Z') then Char.ofNat (c.toNat + 32) else c

/-! ### Normalizer (src/Data_enrichment.py) -/

/-- Embedding of normalize_merchant: a null-like input yields the empty
string, otherwise strip then collapse internal whitespace runs. -/
def normalize_merchant (merchant : Option String) : String :=
  match merchant with
  | none => ""
  | some s => ⟨collapseWs (pyStrip s.data)⟩

/-- Numeric value of a list of ASCII digit characters. -/
def digitsVal (cs : List Char) : ℕ :=
  cs.foldl (fun a c => a * 10 + (c.toNat - 48)) 0

/-- Model of the Python float(s) parser on strings whose characters are
restricted to digits, dot and minus (the only characters surviving the strip
in safe_to_float, or the digit-only strings arising in the extractor).
Accepted shapes, anchored on the whole string: an optional leading minus,
then a run of digits and at most one dot containing at least one digit.
Any other input raises ValueError in Python, modelled as none. -/
def pyFloat (cs : List Char) : Option ℚ :=
  let neg : Bool := cs.head? == some '-'
  let body := if neg then cs.tail else cs
  if body.all (fun c => isAsciiDigit c || c = '.')
      && ((body.filter (fun c => c = '.')).length ≤ 1)
      && body.any isAsciiDigit then
    let intPart := body.takeWhile (fun c => c ≠ '.')
    let fracPart := (body.dropWhile (fun c => c ≠ '.')).drop 1
    let mag : ℚ := (digitsVal intPart : ℚ) + (digitsVal fracPart : ℚ) / 10 ^ fracPart.length
    some (if neg then -mag else mag)
  else
    none

/-- Embedding of safe_to_float: null input yields 0.0; otherwise strip every
character that is not a digit, dot or minus, then parse, with any parse
failure yielding 0.0. -/
def safe_to_float (x : Option String) : ℚ :=
  match x with
  | none => 0
  | some s =>
    let stripped := s.data.filter fun c => isAsciiDigit c || c = '.' || c = '-'
    match pyFloat stripped with
    | some q => q
    | none => 0

/-! ### Bucketizer and classifier (src/Data_enrichment.py) -/

/-- Upper bound of a spend bucket range; the last default range has an
infinite upper bound. -/
inductive UpperBound where
  | fin (q : ℚ)
  | inf
deriving DecidableEq

/-- Comparison amount less-or-equal the upper bound hi of a range. -/
def leUpper (a : ℚ) : UpperBound → Bool
  | .fin q => a ≤ q
  | .inf => true

/-- Embedding of the SPEND_BUCKETS table, in source order. -/
def SPEND_BUCKETS : List (ℚ × UpperBound × String) :=
  [(0, .fin 300, "Small"), (300, .fin 1000, "Medium"), (1000, .inf, "Large")]

/-- First-match lookup over a bucket table, mirroring the for loop of
map_spend_bucket. -/
def bucketLookup (amount : ℚ) : List (ℚ × UpperBound × String) → String
  | [] => "Unknown"
  | (lo, hi, label) :: rest =>
    if lo ≤ amount && leUpper amount hi then label else bucketLookup amount rest

/-- Embedding of map_spend_bucket over the default table. -/
def map_spend_bucket (amount : ℚ) : String :=
  bucketLookup amount SPEND_BUCKETS

/-- Embedding of DEFAULT_CATEGORY_MAP; a Python dict iterates in insertion
order, so the table is an ordered association list. -/
def DEFAULT_CATEGORY_MAP : List (String × String) :=
  [("swiggy", "Food"), ("zomato", "Food"), ("dominos", "Food"),
   ("uber", "Transport"), ("ola", "Transport"),
   ("amazon", "Shopping"), ("flipkart", "Shopping"),
   ("netflix", "Entertainment"), ("spotify", "Entertainment"),
   ("pharm", "Personal"), ("clinic", "Personal")]

/-- Fallback food keyword list of map_category. -/
def food_kw : List String :=
  ["hotel", "restaurant", "cafe", "dhaba", "snack", "tea", "coffee",
   "bakery", "juice", "dine"]

/-- First-match rule lookup of map_category. -/
def categoryLookup (m : List Char) : List (String × String) → Option String
  | [] => none
  | (k, v) :: rest => if containsSub m k.data then some v else categoryLookup m rest

/-- Embedding of map_category: lower-case the merchant, take the first
matching rule, otherwise the food-keyword fallback, otherwise Other. -/
def map_category (merchant : String) (category_map : List (String × String)) : String :=
  let m := pyLower merchant.data
  match categoryLookup m category_map with
  | some v => v
  | none =>
    if food_kw.any (fun kw => containsSub m kw.data) then "Food" else "Other"

/-! ### Calendar arithmetic (Temporal Deriver, src/Data_enrichment.py) -/

/-- Gregorian leap year test. -/
def isLeap (y : ℕ) : Bool :=
  (y % 4 = 0 && y % 100 ≠ 0) || y % 400 = 0

/-- Month lengths of a year. -/
def monthLens (y : ℕ) : List ℕ :=
  [31, if isLeap y then 29 else 28, 31, 30, 31, 30, 31, 31, 30, 31, 30, 31]

/-- Days in a given month (1-12) of a year. -/
def daysInMonth (y m : ℕ) : ℕ :=
  (monthLens y).getD (m - 1) 0

/-- A parsed calendar date, the model of a non-NaT pandas Timestamp day. -/
structure Date where
  year : ℕ
  month : ℕ
  day : ℕ
deriving DecidableEq

/-- Zeller index of the weekday: 0 is Saturday, 1 Sunday, 2 Monday and so on. -/
def zeller (dt : Date) : ℕ :=
  let yy := if dt.month ≤ 2 then dt.year - 1 else dt.year
  let mm := if dt.month ≤ 2 then dt.month + 12 else dt.month
  let K := yy % 100
  let J := yy / 100
  (dt.day + (13 * (mm + 1)) / 5 + K + K / 4 + J / 4 + 5 * J) % 7

/-- Full English weekday name, the value of Series.dt.day_name(). -/
def dayName (dt : Date) : String :=
  (["Saturday", "Sunday", "Monday", "Tuesday", "Wednesday", "Thursday",
    "Friday"]).getD (zeller dt) ""

/-- ISO weekday, 1 is Monday through 7 Sunday. -/
def isoWeekday (dt : Date) : ℕ :=
  (zeller dt + 5) % 7 + 1

/-- Ordinal day of the year, 1-based. -/
def ordinalDay (dt : Date) : ℕ :=
  ((monthLens dt.year).take (dt.month - 1)).sum + dt.day

/-- Whether a year has 53 ISO weeks: January 1 falls on Thursday, or the
year is leap and January 1 falls on Wednesday. -/
def has53Weeks (y : ℕ) : Bool :=
  isoWeekday ⟨y, 1, 1⟩ = 4 || (isLeap y && isoWeekday ⟨y, 1, 1⟩ = 3)

/-- Number of ISO weeks in a year. -/
def lastIsoWeek (y : ℕ) : ℕ :=
  if has53Weeks y then 53 else 52

/-- ISO-8601 week number, the value of Series.dt.isocalendar().week. -/
def isoWeek (dt : Date) : ℕ :=
  let w := (10 + ordinalDay dt - isoWeekday dt) / 7
  if w = 0 then lastIsoWeek (dt.year - 1)
  else if w > lastIsoWeek dt.year then 1
  else w

/-- Decimal digit character. -/
def digitChar (n : ℕ) : Char := Char.ofNat (48 + n % 10)

/-- Decimal digits of a natural number, via a fuel bound on the digit count. -/
def natDigitsAux : ℕ → ℕ → List Char
  | 0, _ => []
  | fuel + 1, n =>
    if n < 10 then [digitChar n]
    else natDigitsAux fuel (n / 10) ++ [digitChar (n % 10)]

/-- Decimal digits of a natural number. -/
def natDigits (n : ℕ) : List Char := natDigitsAux (n + 1) n

/-- Zero-padded decimal representation of width at least w. -/
def padNat (w n : ℕ) : List Char :=
  let ds := natDigits n
  List.replicate (w - ds.length) '0' ++ ds

/-- Month period string of a date, the value of
Series.dt.to_period(M).astype(str): the form YYYY-MM. -/
def periodM (dt : Date) : String :=
  ⟨padNat 4 dt.year ++ ['-'] ++ padNat 2 dt.month⟩

/-- Month abbreviation table, %b of strftime. -/
def monthAbbrevs : List String :=
  ["Jan", "Feb", "Mar", "Apr", "May", "Jun", "Jul", "Aug", "Sep", "Oct",
   "Nov", "Dec"]

/-- Month label of a date, the value of strftime with format %b-%Y: the
derived Mon-YYYY label stored in the Month column. -/
def monthLabel (dt : Date) : String :=
  ⟨(monthAbbrevs.getD (dt.month - 1) "").data ++ ['-'] ++ padNat 4 dt.year⟩

/-- Model of pd.to_datetime(text, errors=coerce, dayfirst=True) restricted
to the date texts the extractor produces, of the shape
month-abbreviation, space, one or two day digits, comma, space, four year
digits. pandas parses these (dayfirst is irrelevant for month-name forms)
and coerces everything unparseable to NaT, modelled as none. -/
def parseDate (text : String) : Option Date :=
  let cs := text.data
  let ab := cs.takeWhile isAsciiAlpha
  match (monthAbbrevs.map String.data).indexOf? ab with
  | none => none
  | some idx => do
    let m := idx + 1
    let r1 := cs.drop ab.length
    match r1 with
    | ' ' :: r2 =>
      let ds := r2.takeWhile isAsciiDigit
      if ds.length = 1 ∨ ds.length = 2 then
        match r2.drop ds.length with
        | ',' :: ' ' :: r3 =>
          let ys := r3.takeWhile isAsciiDigit
          if ys.length = 4 ∧ r3.drop 4 = [] then
            let d := digitsVal ds
            let y := digitsVal ys
            if 1 ≤ d ∧ d ≤ daysInMonth y m then some ⟨y, m, d⟩ else none
          else none
        | _ => none
      else none
    | _ => none

/-! ### Extractor (src/pdf_to_csv.py) -/

/-- Error model for raised Python exceptions. -/
inductive PyErr where
  | valueError (msg : String)
  | attributeError (msg : String)
  | keyError (msg : String)
deriving DecidableEq

/-- Branch of the stage-1 coarse regex taking four letters. -/
def stage1Branch4 : List Char → Bool
  | c1 :: c2 :: c3 :: c4 :: s :: d1 :: d2 :: _ =>
    isAsciiAlpha c1 && isAsciiAlpha c2 && isAsciiAlpha c3 && isAsciiAlpha c4 &&
      isPySpace s && isAsciiDigit d1 && isAsciiDigit d2
  | _ => false

/-- Branch of the stage-1 coarse regex taking three letters. -/
def stage1Branch3 : List Char → Bool
  | c1 :: c2 :: c3 :: s :: d1 :: d2 :: _ =>
    isAsciiAlpha c1 && isAsciiAlpha c2 && isAsciiAlpha c3 &&
      isPySpace s && isAsciiDigit d1 && isAsciiDigit d2
  | _ => false

/-- Stage-1 coarse filter: the anchored regex of three-or-four letters, one
whitespace character and two digits. The greedy counted repetition tries
four letters first and then backtracks to three; letters and whitespace are
disjoint so the two branches simply form a disjunction. -/
def stage1 (l : List Char) : Bool :=
  stage1Branch4 l || stage1Branch3 l

/-- One repetition of the stage-2 date group: three-or-four letters, one
whitespace character, one-or-two digits, a comma, one whitespace character,
the literal 20 and two digits. Every greedy bounded quantifier here is
deterministic: the letter run is followed by whitespace (disjoint from
letters) and the day digit run is followed by a comma (not a digit), so
only the maximal run of each class can succeed. Returns the matched span
and the remaining characters. -/
def matchG (l : List Char) : Option (List Char × List Char) :=
  let ab := l.takeWhile isAsciiAlpha
  if ab.length = 3 || ab.length = 4 then
    match l.drop ab.length with
    | s1 :: r1 =>
      if isPySpace s1 then
        let ds := r1.takeWhile isAsciiDigit
        if ds.length = 1 || ds.length = 2 then
          match r1.drop ds.length with
          | ',' :: s2 :: r2 =>
            if isPySpace s2 then
              match r2 with
              | '2' :: '0' :: y1 :: y2 :: r3 =>
                if isAsciiDigit y1 && isAsciiDigit y2 then
                  some (ab ++ s1 :: ds ++ ',' :: s2 :: '2' :: '0' :: y1 :: y2 :: [], r3)
                else none
              | _ => none
            else none
          | _ => none
        else none
      else none
    | [] => none
  else none

/-- The plus-repetition of the date group: take adjacent repetitions
greedily and capture the span of the last one, which is what a repeated
capturing group records. Each repetition consumes at least nine characters,
so the fuel bound given by the input length is never exhausted. Backtracking
to fewer repetitions can never rescue a failed continuation, because the
atom after the group is whitespace while every repetition starts with a
letter. -/
def matchGplusAux : ℕ → List Char → Option (List Char × List Char)
  | 0, l => matchG l
  | fuel + 1, l => do
    let (s, r) ← matchG l
    match matchGplusAux fuel r with
    | some res => some res
    | none => some (s, r)

/-- Entry point of the repeated date group with adequate fuel. -/
def matchGplus (l : List Char) : Option (List Char × List Char) :=
  matchGplusAux l.length l

/-- Tail of the amount part: optional whitespace, the rupee sign, then a
nonempty greedy run of digits and commas, the capture of the amount group.
The whitespace run is forced maximal because the rupee sign is not
whitespace. -/
def amountTail (t : String) (r : List Char) : Option (String × String) :=
  let r3 := r.dropWhile isPySpace
  if r3.head? = some '₹' then
    let amt := r3.tail.takeWhile fun c => isAsciiDigit c || c = ','
    if amt = [] then none else some (t, ⟨amt⟩)
  else none

/-- Tail pattern after the merchant: whitespace-plus, DEBIT or CREDIT in
that alternation order, then the amount tail. The whitespace-plus run is
forced maximal because both alternatives start with a letter. Returns the
type and amount captures. -/
def restMatch (l : List Char) : Option (String × String) :=
  match l with
  | c :: _ =>
    if isPySpace c then
      let r1 := l.dropWhile isPySpace
      if litPrefix "DEBIT".data r1 then amountTail "DEBIT" (r1.drop 5)
      else if litPrefix "CREDIT".data r1 then amountTail "CREDIT" (r1.drop 6)
      else none
    else none
  | [] => none

/-- The non-greedy merchant capture: Python tries merchant lengths in
increasing order starting at one character, so the shortest nonempty prefix
of non-newline characters whose suffix matches the tail pattern wins.
Returns the merchant, type and amount captures. -/
def scanMerchant (acc : List Char) : List Char → Option (String × String × String)
  | [] => none
  | c :: rest =>
    if c = '\n' then none
    else
      match restMatch rest with
      | some (t, a) => some (⟨acc ++ [c]⟩, t, a)
      | none => scanMerchant (acc ++ [c]) rest

/-- Stage-2 strict extractor: the repeated date group, one whitespace
character, the literal Paid to followed by a space, the non-greedy merchant
and the type and amount tail. Returns the date, merchant, type and amount
captures of a matching line. -/
def stage2 (l : List Char) : Option (String × String × String × String) := do
  let (dateSpan, r1) ← matchGplus l
  match r1 with
  | s :: r2 =>
    if isPySpace s then
      if litPrefix "Paid to ".data r2 then
        match scanMerchant [] (r2.drop 8) with
        | some (m, t, a) => some (⟨dateSpan⟩, m, t, a)
        | none => none
      else none
    else none
  | [] => none

/-- A transaction record appended by the extractor. -/
structure Txn where
  date : String
  merchant : String
  txnType : String
  amount : ℚ
deriving DecidableEq

/-- Per-line behaviour of the extractor loop: the line must pass the
stage-1 coarse regex, must not start with the literal Page, and must match
the stage-2 strict regex; otherwise it yields nothing. -/
def lineCapture (line : String) : Option (String × String × String × String) :=
  if stage1 line.data && !(litPrefix "Page".data line.data) then stage2 line.data
  else none

/-- Record construction for a fully matched line: the merchant capture is
stripped, the amount capture has commas removed and is converted by float,
which raises ValueError when no characters remain. -/
def buildTxn (cap : String × String × String × String) : Except PyErr Txn :=
  match cap with
  | (d, m, t, a) =>
    match pyFloat (a.data.filter fun c => c ≠ ',') with
    | some q => .ok { date := d, merchant := ⟨pyStrip m.data⟩, txnType := t, amount := q }
    | none => .error (.valueError "could not convert string to float")

/-- Body of the extractor loop for one line: append the record of a fully
matched line to the accumulator and keep every other line out. -/
def scanLine (acc : List Txn) (line : String) : Except PyErr (List Txn) :=
  match lineCapture line with
  | some cap => do
    let t ← buildTxn cap
    pure (acc ++ [t])
  | none => pure acc

/-- Embedding of pdf_to_csv over pages of already extracted text lines (the
pdfplumber adapter is an external collaborator): scan every line of every
page in document order, appending one record per fully matched line. -/
def pdf_to_csv (pages : List (List String)) : Except PyErr (List Txn) :=
  pages.foldlM (fun acc page => page.foldlM scanLine acc) []

/-! ### Enrichment rows (src/Data_enrichment.py) -/

/-- An enriched transaction row with the columns enrich produces. Missing
values (NaT, NaN, pd.NA) are modelled as none. -/
structure Row where
  date : Option Date
  merchant : String
  txnType : Option String
  amount : ℚ
  month : Option String
  day : ℕ
  dayOfWeek : Option String
  weekNumber : Option ℕ
  spendBucket : String
  category : String
  isWeekend : Bool
  dayType : String
deriving DecidableEq

/-- A raw record entering enrich: the four extractor columns as read back
from the CSV, with missing cells as none. -/
structure RawTxn where
  date : Option String
  merchant : Option String
  txnType : Option String
  amount : Option String
deriving DecidableEq

/-- Row-wise effect of enrich: parse the date with coercion to NaT, derive
the calendar columns, normalize the merchant and amount, then bucket and
categorize. A NaT date yields Month NaN, Day 0 through fillna,
Day_Of_Week NaN from day_name, Week_Number NA, Is_Weekend false since isin
is false for a missing value, and Day_Type Weekday. -/
def enrichRow (category_map : List (String × String)) (raw : RawTxn) : Row :=
  let d := raw.date.bind parseDate
  let merchant := normalize_merchant raw.merchant
  let amount := safe_to_float raw.amount
  let dow := d.map dayName
  let wknd :=
    match dow with
    | some n => n = "Saturday" || n = "Sunday"
    | none => false
  { date := d
    merchant := merchant
    txnType := raw.txnType
    amount := amount
    month := d.map monthLabel
    day := match d with | some dt => dt.day | none => 0
    dayOfWeek := dow
    weekNumber := d.map isoWeek
    spendBucket := map_spend_bucket amount
    category := map_category merchant category_map
    isWeekend := wknd
    dayType := if wknd then "Weekend" else "Weekday" }

/-- Embedding of enrich: choose the rule table through Python truthiness of
the optional argument (None and the empty table fall back to the default),
then map the row transform over the records. -/
def enrich (df : List RawTxn) (category_map : Option (List (String × String))) :
    List Row :=
  let cmap :=
    match category_map with
    | none => DEFAULT_CATEGORY_MAP
    | some m => if m = [] then DEFAULT_CATEGORY_MAP else m
  df.map (enrichRow cmap)

/-! ### Grouping helpers shared by insights and charts -/

/-- Insertion into a list sorted by the boolean relation le. -/
def insertLe {κ : Type} (le : κ → κ → Bool) (a : κ) : List κ → List κ
  | [] => [a]
  | b :: l => if le a b then a :: b :: l else b :: insertLe le a l

/-- Insertion sort by the boolean relation le, the model of the ascending
key sort pandas groupby performs with its default sort option. -/
def sortLe {κ : Type} (le : κ → κ → Bool) : List κ → List κ
  | [] => []
  | a :: l => insertLe le a (sortLe le l)

/-- Python string less-than: lexicographic comparison of code points. -/
def charListLt : List Char → List Char → Bool
  | [], [] => false
  | [], _ :: _ => true
  | _ :: _, [] => false
  | a :: as, b :: bs => a.toNat < b.toNat || (a.toNat = b.toNat && charListLt as bs)

/-- Python string less-or-equal, through negation of the reverse strict
comparison. -/
def pyStrLe (s t : String) : Bool := !(charListLt t.data s.data)

/-- Group keys of rows under a key selector: one entry per distinct
non-missing key (groupby drops missing keys), sorted ascending. -/
def groupKeys {κ : Type} [DecidableEq κ] (le : κ → κ → Bool) (key : Row → Option κ)
    (rows : List Row) : List κ :=
  sortLe le (rows.filterMap key).dedup

/-- Amount sum of the rows carrying the given key. -/
def keySum {κ : Type} [DecidableEq κ] (key : Row → Option κ) (k : κ)
    (rows : List Row) : ℚ :=
  ((rows.filter fun r => decide (key r = some k)).map Row.amount).sum

/-- Row count of the rows carrying the given key. -/
def keyCount {κ : Type} [DecidableEq κ] (key : Row → Option κ) (k : κ)
    (rows : List Row) : ℕ :=
  (rows.filter fun r => decide (key r = some k)).length

/-- Model of df.groupby(key)[Amount].sum(): the sorted association list
from each distinct key to its Amount sum. -/
def groupbySum {κ : Type} [DecidableEq κ] (le : κ → κ → Bool) (key : Row → Option κ)
    (rows : List Row) : List (κ × ℚ) :=
  (groupKeys le key rows).map fun k => (k, keySum key k rows)

/-- Model of Series.idxmax together with the value there: the first entry
in index order whose value attains the maximum; none on an empty series,
where pandas raises. -/
def idxmax {κ : Type} : List (κ × ℚ) → Option (κ × ℚ)
  | [] => none
  | p :: rest =>
    match idxmax rest with
    | none => some p
    | some q => if q.2 > p.2 then some q else some p

/-! ### Insights (src/insights.py) -/

/-- Embedding of the helper that validates the dataframe argument. -/
def _validate_df (df : Option (List Row)) : Except PyErr (List Row) :=
  match df with
  | none => .error (.valueError "Input DataFrame is empty or None.")
  | some [] => .error (.valueError "Input DataFrame is empty or None.")
  | some rows => .ok rows

/-- Month key of a row as compared by the filter: the period string
YYYY-MM of the Date value, or the NaT rendering for a missing date. -/
def month_key (r : Row) : String :=
  match r.date with
  | some dt => periodM dt
  | none => "NaT"

/-- Embedding of the month filter: validate, compare the period string of
every Date against the month argument, and raise when nothing matches. -/
def _filter_by_month (df : Option (List Row)) (month : String) :
    Except PyErr (List Row) := do
  let rows ← _validate_df df
  let filtered := rows.filter fun r => month_key r == month
  if filtered = [] then
    .error (.valueError ("No data available for month: " ++ month))
  else
    .ok filtered

/-- Embedding of total_spend_in_month. -/
def total_spend_in_month (df : Option (List Row)) (month : String) :
    Except PyErr ℚ := do
  let mdf ← _filter_by_month df month
  pure (mdf.map Row.amount).sum

/-- Embedding of transaction_count_in_month. -/
def transaction_count_in_month (df : Option (List Row)) (month : String) :
    Except PyErr ℕ := do
  let mdf ← _filter_by_month df month
  pure mdf.length

/-- Embedding of average_transaction_in_month; the filtered set is never
empty, so the mean divides by a positive count. -/
def average_transaction_in_month (df : Option (List Row)) (month : String) :
    Except PyErr ℚ := do
  let mdf ← _filter_by_month df month
  pure ((mdf.map Row.amount).sum / mdf.length)

/-- Embedding of top_merchant_in_month: group by merchant, sum, then take
idxmax and the maximum value. -/
def top_merchant_in_month (df : Option (List Row)) (month : String) :
    Except PyErr (String × ℚ) := do
  let mdf ← _filter_by_month df month
  match idxmax (groupbySum pyStrLe (fun r => some r.merchant) mdf) with
  | some p => pure p
  | none => .error (.valueError "attempt to get argmax of an empty sequence")

/-- Embedding of unique_merchants_in_month. -/
def unique_merchants_in_month (df : Option (List Row)) (month : String) :
    Except PyErr ℕ := do
  let mdf ← _filter_by_month df month
  pure (mdf.map Row.merchant).dedup.length

/-- Embedding of top_category_in_month. -/
def top_category_in_month (df : Option (List Row)) (month : String) :
    Except PyErr (String × ℚ) := do
  let mdf ← _filter_by_month df month
  match idxmax (groupbySum pyStrLe (fun r => some r.category) mdf) with
  | some p => pure p
  | none => .error (.valueError "attempt to get argmax of an empty sequence")

/-- Result record of weekend_vs_weekday_spend. -/
structure WWSpend where
  weekend : ℚ
  weekday : ℚ
  dominant : String
deriving DecidableEq

/-- Embedding of weekend_vs_weekday_spend: the month argument passes
through Python truthiness, so None and the empty string skip both the
filter and its validation; the unfiltered dataframe may then be the Python
None, on which the groupby attribute access raises. -/
def weekend_vs_weekday_spend (df : Option (List Row)) (month : Option String) :
    Except PyErr WWSpend := do
  let data : Option (List Row) ←
    match month with
    | some m =>
      if m = "" then pure df
      else do
        let r ← _filter_by_month df m
        pure (some r)
    | none => pure df
  match data with
  | none => .error (.attributeError "NoneType object has no attribute groupby")
  | some rows =>
    let grp := groupbySum pyStrLe (fun r => some r.dayType) rows
    let weekend := ((grp.find? fun p => p.1 == "Weekend").map Prod.snd).getD 0
    let weekday := ((grp.find? fun p => p.1 == "Weekday").map Prod.snd).getD 0
    pure { weekend := weekend, weekday := weekday,
           dominant := if weekend > weekday then "Weekend" else "Weekday" }

/-- Embedding of highest_spending_week_in_month: group by the ISO week
number and take idxmax. -/
def highest_spending_week_in_month (df : Option (List Row)) (month : String) :
    Except PyErr (ℕ × ℚ) := do
  let mdf ← _filter_by_month df month
  match idxmax (groupbySum Nat.ble (fun r => r.weekNumber) mdf) with
  | some p => pure p
  | none => .error (.valueError "attempt to get argmax of an empty sequence")

/-! ### Aggregation (src/charts.py) -/

/-- Column selector for the grouping columns of aggregate_data. The numeric
Week_Number column is rendered through its decimal label so that one result
type covers every supported key; only its key ordering, which no claim
touches, differs from the numeric pandas ordering. An unknown column name
raises KeyError inside groupby. -/
def colKey : String → Option (Row → Option String)
  | "Merchant" => some fun r => some r.merchant
  | "Category" => some fun r => some r.category
  | "SpendBucket" => some fun r => some r.spendBucket
  | "Day_Of_Week" => some fun r => r.dayOfWeek
  | "Day_Type" => some fun r => some r.dayType
  | "Week_Number" => some fun r => r.weekNumber.map fun w => ⟨natDigits w⟩
  | _ => none

/-- Embedding of aggregate_data from src/charts.py: validate, reject any
metric outside sum, count and mean, then group by the requested column and
apply the metric to the Amount column. Counts are returned as rationals so
the three metrics share a result type. -/
def aggregate_data (df : Option (List Row)) (group_by metric : String) :
    Except PyErr (List (String × ℚ)) := do
  let rows ← _validate_df df
  if metric = "sum" || metric = "count" || metric = "mean" then
    match colKey group_by with
    | none => .error (.keyError group_by)
    | some key =>
      if metric = "sum" then
        pure (groupbySum pyStrLe key rows)
      else if metric = "count" then
        pure ((groupKeys pyStrLe key rows).map fun k => (k, (keyCount key k rows : ℚ)))
      else
        pure ((groupKeys pyStrLe key rows).map fun k =>
          (k, keySum key k rows / (keyCount key k rows : ℚ)))
  else
    .error (.valueError "metric must be one of: sum, count, mean")

/-! ### Specification-side predicates and example data -/

deriving instance DecidableEq for Except

/-- Shape predicate of the stage-1 coarse filter as the code realizes it:
the line starts with exactly three or four letters, then one whitespace
character, then two digits. -/
def stage1Shape (l : List Char) : Prop :=
  (∃ c1 c2 c3 s d1 d2 rest, l = c1 :: c2 :: c3 :: s :: d1 :: d2 :: rest ∧
    isAsciiAlpha c1 = true ∧ isAsciiAlpha c2 = true ∧ isAsciiAlpha c3 = true ∧
    isPySpace s = true ∧ isAsciiDigit d1 = true ∧ isAsciiDigit d2 = true) ∨
  (∃ c1 c2 c3 c4 s d1 d2 rest, l = c1 :: c2 :: c3 :: c4 :: s :: d1 :: d2 :: rest ∧
    isAsciiAlpha c1 = true ∧ isAsciiAlpha c2 = true ∧ isAsciiAlpha c3 = true ∧
    isAsciiAlpha c4 = true ∧ isPySpace s = true ∧ isAsciiDigit d1 = true ∧
    isAsciiDigit d2 = true)

/-- Specification-side record of a fully matched line whose amount capture
holds at least one digit; it coincides with the record buildTxn appends. -/
def txnOfCap (cap : String × String × String × String) : Txn :=
  { date := cap.1
    merchant := ⟨pyStrip cap.2.1.data⟩
    txnType := cap.2.2.1
    amount := (pyFloat (cap.2.2.2.data.filter fun c => c ≠ ',')).getD 0 }

/-- Example raw record whose date text no parser accepts. -/
def rawBadDate : RawTxn :=
  { date := some "not a date"
    merchant := some "X"
    txnType := some "DEBIT"
    amount := some "100" }

/-- Example enriched row: the DEBIT 500 Swiggy transaction of January 5,
2025 (a Sunday), as enrich derives it. -/
def rowSwiggy : Row :=
  { date := some ⟨2025, 1, 5⟩
    merchant := "Swiggy Order"
    txnType := some "DEBIT"
    amount := 500
    month := some "Jan-2025"
    day := 5
    dayOfWeek := some "Sunday"
    weekNumber := some 1
    spendBucket := "Medium"
    category := "Food"
    isWeekend := true
    dayType := "Weekend" }

/-- Example row for the tie-break analysis: merchant b, amount 10, first in
dataset order. -/
def rowTieB : Row :=
  { date := some ⟨2025, 1, 5⟩
    merchant := "b"
    txnType := some "DEBIT"
    amount := 10
    month := some "Jan-2025"
    day := 5
    dayOfWeek := some "Sunday"
    weekNumber := some 1
    spendBucket := "Small"
    category := "kb"
    isWeekend := true
    dayType := "Weekend" }

/-- Example row for the tie-break analysis: merchant a, amount 10, second in
dataset order but lexicographically first. -/
def rowTieA : Row :=
  { date := some ⟨2025, 1, 31⟩
    merchant := "a"
    txnType := some "DEBIT"
    amount := 10
    month := some "Jan-2025"
    day := 31
    dayOfWeek := some "Friday"
    weekNumber := some 5
    spendBucket := "Small"
    category := "ka"
    isWeekend := false
    dayType := "Weekday" }

/-! ### Order properties of the Python string comparison -/

lemma charListLt_irrefl (l : List Char) : charListLt l l = false := by
  induction l with
  | nil => rfl
  | cons a t ih => simp [charListLt, ih]

lemma charListLt_trans :
    ∀ (a b c : List Char), charListLt a b = true → charListLt b c = true →
      charListLt a c = true := by
  intro a
  induction a with
  | nil =>
    intro b c hab hbc
    cases b with
    | nil => exact absurd hab (by simp [charListLt])
    | cons y ys => cases c with
      | nil => exact absurd hbc (by simp [charListLt])
      | cons z zs => simp [charListLt]
  | cons x xs ih =>
    intro b c hab hbc
    cases b with
    | nil => exact absurd hab (by simp [charListLt])
    | cons y ys =>
      cases c with
      | nil => exact absurd hbc (by simp [charListLt])
      | cons z zs =>
        simp only [charListLt, Bool.or_eq_true, Bool.and_eq_true,
          decide_eq_true_eq] at hab hbc ⊢
        rcases hab with h1 | ⟨he1, h1⟩ <;> rcases hbc with h2 | ⟨he2, h2⟩
        · exact Or.inl (h1.trans h2)
        · exact Or.inl (he2 ▸ h1)
        · exact Or.inl (he1 ▸ h2)
        · exact Or.inr ⟨he1.trans he2, ih ys zs h1 h2⟩

lemma charListLt_cotrans :
    ∀ (a c : List Char), charListLt a c = true →
      ∀ b : List Char, charListLt a b = true ∨ charListLt b c = true := by
  intro a
  induction a with
  | nil =>
    intro c hac b
    cases c with
    | nil => exact absurd hac (by simp [charListLt])
    | cons z zs =>
      cases b with
      | nil => exact Or.inr (by simp [charListLt])
      | cons y ys => exact Or.inl (by simp [charListLt])
  | cons x xs ih =>
    intro c hac b
    cases c with
    | nil => exact absurd hac (by simp [charListLt])
    | cons z zs =>
      cases b with
      | nil => exact Or.inr (by simp [charListLt])
      | cons y ys =>
        simp only [charListLt, Bool.or_eq_true, Bool.and_eq_true,
          decide_eq_true_eq] at hac ⊢
        rcases Nat.lt_trichotomy x.toNat y.toNat with hxy | hxy | hxy
        · exact Or.inl (Or.inl hxy)
        · rcases hac with h | ⟨he, h⟩
          · exact Or.inr (Or.inl (hxy ▸ h))
          · rcases ih zs h ys with h' | h'
            · exact Or.inl (Or.inr ⟨hxy, h'⟩)
            · exact Or.inr (Or.inr ⟨hxy ▸ he, h'⟩)
        · rcases hac with h | ⟨he, h⟩
          · exact Or.inr (Or.inl (hxy.trans h))
          · exact Or.inr (Or.inl (he ▸ hxy))

lemma pyStrLe_refl (s : String) : pyStrLe s s = true := by
  simp [pyStrLe, charListLt_irrefl]

lemma pyStrLe_total (s t : String) : pyStrLe s t = true ∨ pyStrLe t s = true := by
  by_contra h
  push_neg at h
  obtain ⟨h1, h2⟩ := h
  have h1' : charListLt t.data s.data = true := by
    simpa [pyStrLe] using h1
  have h2' : charListLt s.data t.data = true := by
    simpa [pyStrLe] using h2
  have := charListLt_trans _ _ _ h1' h2'
  simp [charListLt_irrefl] at this

lemma pyStrLe_trans (a b c : String) (h1 : pyStrLe a b = true)
    (h2 : pyStrLe b c = true) : pyStrLe a c = true := by
  simp only [pyStrLe, Bool.not_eq_true'] at h1 h2 ⊢
  by_contra h
  simp only [Bool.not_eq_false] at h
  rcases charListLt_cotrans _ _ h b.data with h' | h'
  · simp [h'] at h2
  · simp [h'] at h1

/-! ### Sorting lemmas -/

lemma perm_insertLe {κ : Type} (le : κ → κ → Bool) (a : κ) (l : List κ) :
    List.Perm (insertLe le a l) (a :: l) := by
  induction l with
  | nil => exact List.Perm.refl _
  | cons b t ih =>
    by_cases h : le a b = true
    · simp [insertLe, h]
    · simp only [insertLe, h, if_false, Bool.false_eq_true]
      exact (ih.cons b).trans (List.Perm.swap a b t)

lemma perm_sortLe {κ : Type} (le : κ → κ → Bool) (l : List κ) :
    List.Perm (sortLe le l) l := by
  induction l with
  | nil => exact List.Perm.refl _
  | cons a t ih => exact (perm_insertLe le a (sortLe le t)).trans (ih.cons a)

lemma pairwise_insertLe {κ : Type} (le : κ → κ → Bool)
    (htot : ∀ x y, le x y = true ∨ le y x = true)
    (htrans : ∀ x y z, le x y = true → le y z = true → le x z = true)
    (a : κ) (l : List κ) (h : l.Pairwise fun x y => le x y = true) :
    (insertLe le a l).Pairwise fun x y => le x y = true := by
  induction l with
  | nil => simp [insertLe]
  | cons b t ih =>
    rw [List.pairwise_cons] at h
    obtain ⟨hb, ht⟩ := h
    by_cases hab : le a b = true
    · simp only [insertLe, hab, if_true]
      refine List.pairwise_cons.mpr ⟨?_, List.pairwise_cons.mpr ⟨hb, ht⟩⟩
      intro x hx
      rcases List.mem_cons.mp hx with rfl | hx
      · exact hab
      · exact htrans a b x hab (hb x hx)
    · simp only [insertLe, hab, if_false, Bool.false_eq_true]
      refine List.pairwise_cons.mpr ⟨?_, ih ht⟩
      intro x hx
      rcases List.mem_cons.mp ((perm_insertLe le a t).mem_iff.mp hx) with rfl | h'
      · rcases htot x b with h'' | h''
        · exact absurd h'' hab
        · exact h''
      · exact hb x h'

lemma pairwise_sortLe {κ : Type} (le : κ → κ → Bool)
    (htot : ∀ x y, le x y = true ∨ le y x = true)
    (htrans : ∀ x y z, le x y = true → le y z = true → le x z = true)
    (l : List κ) : (sortLe le l).Pairwise fun x y => le x y = true := by
  induction l with
  | nil => simp [sortLe]
  | cons a t ih => exact pairwise_insertLe le htot htrans a (sortLe le t) ih

/-! ### idxmax specification -/

lemma idxmax_eq_none {κ : Type} (l : List (κ × ℚ)) : idxmax l = none ↔ l = [] := by
  cases l with
  | nil => simp [idxmax]
  | cons p rest =>
    simp only [idxmax]
    cases idxmax rest with
    | none => simp
    | some q =>
      by_cases h : q.2 > p.2 <;> simp [h]

lemma idxmax_spec {κ : Type} (le : κ → κ → Bool) (hrefl : ∀ x, le x x = true) :
    ∀ (l : List (κ × ℚ)), (l.Pairwise fun p q => le p.1 q.1 = true) →
      ∀ m : κ × ℚ, idxmax l = some m →
        m ∈ l ∧ (∀ p ∈ l, p.2 ≤ m.2) ∧ (∀ p ∈ l, p.2 = m.2 → le m.1 p.1 = true) := by
  intro l
  induction l with
  | nil => intro _ m h; simp [idxmax] at h
  | cons p rest ih =>
    intro hs m h
    rw [List.pairwise_cons] at hs
    obtain ⟨hhead, htail⟩ := hs
    cases hrest : idxmax rest with
    | none =>
      simp only [idxmax, hrest] at h
      have hnil : rest = [] := (idxmax_eq_none rest).mp hrest
      subst hnil
      simp only [Option.some.injEq] at h
      subst h
      refine ⟨by simp, ?_, ?_⟩
      · intro q hq; rcases List.mem_cons.mp hq with rfl | hq
        · exact le_refl _
        · simp at hq
      · intro q hq _; rcases List.mem_cons.mp hq with rfl | hq
        · exact hrefl _
        · simp at hq
    | some q =>
      simp only [idxmax, hrest] at h
      obtain ⟨hqmem, hqmax, hqtie⟩ := ih htail q hrest
      by_cases hgt : q.2 > p.2
      · rw [if_pos hgt] at h
        simp only [Option.some.injEq] at h
        subst h
        refine ⟨List.mem_cons_of_mem p hqmem, ?_, ?_⟩
        · intro x hx; rcases List.mem_cons.mp hx with rfl | hx
          · exact le_of_lt hgt
          · exact hqmax x hx
        · intro x hx hxv; rcases List.mem_cons.mp hx with rfl | hx
          · exact absurd hxv (by exact ne_of_lt hgt)
          · exact hqtie x hx hxv
      · rw [if_neg hgt] at h
        simp only [Option.some.injEq] at h
        subst h
        push_neg at hgt
        refine ⟨by simp, ?_, ?_⟩
        · intro x hx; rcases List.mem_cons.mp hx with rfl | hx
          · exact le_refl _
          · exact (hqmax x hx).trans hgt
        · intro x hx _; rcases List.mem_cons.mp hx with rfl | hx
          · exact hrefl _
          · exact hhead x hx

/-! ### Grouping lemmas -/

lemma mem_groupKeys {κ : Type} [DecidableEq κ] (le : κ → κ → Bool)
    (key : Row → Option κ) (rows : List Row) (k : κ) :
    k ∈ groupKeys le key rows ↔ k ∈ rows.filterMap key := by
  unfold groupKeys
  rw [(perm_sortLe le _).mem_iff, List.mem_dedup]

lemma groupbySum_pairwise (key : Row → String) (rows : List Row) :
    (groupbySum pyStrLe (fun r => some (key r)) rows).Pairwise
      fun p q => pyStrLe p.1 q.1 = true := by
  unfold groupbySum
  rw [List.pairwise_map]
  exact pairwise_sortLe pyStrLe pyStrLe_total pyStrLe_trans _

/-! ### Helper for the weekend-versus-weekday result -/

lemma ww_dominant_eq (df : Option (List Row)) (month : Option String) (w : WWSpend)
    (h : weekend_vs_weekday_spend df month = .ok w) :
    w.dominant = if w.weekend > w.weekday then "Weekend" else "Weekday" := by
  obtain ⟨w1, w2, w3⟩ := w
  cases month with
  | none =>
    cases df with
    | none => simp [weekend_vs_weekday_spend, Bind.bind, Except.bind, pure, Except.pure] at h
    | some rows =>
      simp [weekend_vs_weekday_spend, Bind.bind, Except.bind, pure, Except.pure,
        Except.ok.injEq, WWSpend.mk.injEq] at h
      obtain ⟨h1, h2, h3⟩ := h
      subst h1; subst h2; subst h3
      rfl
  | some m =>
    by_cases hm : m = ""
    · subst hm
      cases df with
      | none => simp [weekend_vs_weekday_spend, Bind.bind, Except.bind, pure, Except.pure] at h
      | some rows =>
        simp [weekend_vs_weekday_spend, Bind.bind, Except.bind, pure, Except.pure,
          Except.ok.injEq, WWSpend.mk.injEq] at h
        obtain ⟨h1, h2, h3⟩ := h
        subst h1; subst h2; subst h3
        rfl
    · rcases hf : _filter_by_month df m with e | rows
      · simp [weekend_vs_weekday_spend, hm, hf, Bind.bind, Except.bind, pure, Except.pure] at h
      · simp [weekend_vs_weekday_spend, hm, hf, Bind.bind, Except.bind, pure,
          Except.pure, Except.ok.injEq, WWSpend.mk.injEq] at h
        obtain ⟨h1, h2, h3⟩ := h
        subst h1; subst h2; subst h3
        rfl

/-! ### Claim theorems -/

/-- Claim C8: map_spend_bucket evaluates the range table in order with
inclusive bounds on both ends, so a shared boundary belongs to the earlier
bucket, any amount below the lowest low bound resolves to Unknown, and the
four documented sample points evaluate as stated. -/
theorem C8_map_spend_bucket :
    map_spend_bucket 300 = "Small" ∧ map_spend_bucket 1000 = "Medium" ∧
    map_spend_bucket 1500 = "Large" ∧ map_spend_bucket (-5) = "Unknown" ∧
    (∀ a : ℚ, a < 0 → map_spend_bucket a = "Unknown") := by
  refine ⟨by decide, by decide, by decide, by decide, ?_⟩
  intro a ha
  have h0 : ¬ ((0 : ℚ) ≤ a) := not_le.mpr ha
  have h300 : ¬ ((300 : ℚ) ≤ a) := not_le.mpr (ha.trans (by norm_num))
  have h1000 : ¬ ((1000 : ℚ) ≤ a) := not_le.mpr (ha.trans (by norm_num))
  simp [map_spend_bucket, bucketLookup, SPEND_BUCKETS, h0, h300, h1000]

/-- Witness for claim C8 at the concrete negative amount minus seven. -/
theorem C8_witness : map_spend_bucket (-7) = "Unknown" :=
  C8_map_spend_bucket.2.2.2.2 (-7) (by norm_num)

/-- Claim C7: safe_to_float strips every character that is not a digit, a
dot or a minus, parses the remainder, never raises, yields 0.0 for a null
input or an empty or unparsable remainder, and the documented sample values
hold. -/
theorem C7_safe_to_float :
    safe_to_float (some "₹1,234.50") = 1234.5 ∧
    safe_to_float (some "") = 0 ∧
    safe_to_float none = 0 ∧
    (∀ s : String,
      pyFloat (s.data.filter fun c => isAsciiDigit c || c = '.' || c = '-') = none →
        safe_to_float (some s) = 0) ∧
    (∀ s : String, ∀ c ∈ s.data.filter fun c => isAsciiDigit c || c = '.' || c = '-',
      isAsciiDigit c = true ∨ c = '.' ∨ c = '-') := by
  refine ⟨?_, by decide, by decide, ?_, ?_⟩
  · have hs : "₹1,234.50".data.filter (fun c => isAsciiDigit c || c = '.' || c = '-') =
        ['1', '2', '3', '4', '.', '5', '0'] := by decide
    have d1 : digitsVal ['1', '2', '3', '4'] = 1234 := by decide
    have d2 : digitsVal ['5', '0'] = 50 := by decide
    have hp : pyFloat ['1', '2', '3', '4', '.', '5', '0'] = some 1234.5 := by
      simp +decide [pyFloat, d1, d2]
      norm_num
    simp [safe_to_float, hs, hp]
  · intro s h
    simp [safe_to_float, h]
  · intro s c hc
    simpa [or_assoc] using (List.mem_filter.mp hc).2

/-- Witness for claim C7 at a concrete letters-only input. -/
theorem C7_witness : safe_to_float (some "abc") = 0 :=
  C7_safe_to_float.2.2.2.1 "abc" (by decide)

/-- Claim C6 counterexample: at the unparseable date text of rawBadDate,
enrichment stores a missing Day_Of_Week value (day_name of NaT is NaN), not
the empty string the claim requires. -/
theorem C6_counterexample :
    (enrichRow DEFAULT_CATEGORY_MAP rawBadDate).dayOfWeek = none ∧
    (enrichRow DEFAULT_CATEGORY_MAP rawBadDate).dayOfWeek ≠ some "" := by
  constructor <;> decide

/-- Claim C6 amended: for every raw record whose date text is unparseable,
enrichment never raises (the embedded transform is total) and produces
day 0, a missing day_of_week, a missing week_number and month, is_weekend
false and day_type Weekday. -/
theorem C6_null_date_defaults (cmap : List (String × String)) (raw : RawTxn)
    (h : raw.date.bind parseDate = none) :
    (enrichRow cmap raw).day = 0 ∧ (enrichRow cmap raw).dayOfWeek = none ∧
    (enrichRow cmap raw).weekNumber = none ∧ (enrichRow cmap raw).isWeekend = false ∧
    (enrichRow cmap raw).dayType = "Weekday" ∧ (enrichRow cmap raw).month = none := by
  simp [enrichRow, h]

/-- Witness for claim C6 at the concrete unparseable record. -/
theorem C6_witness :
    (enrichRow DEFAULT_CATEGORY_MAP rawBadDate).day = 0 ∧
    (enrichRow DEFAULT_CATEGORY_MAP rawBadDate).dayOfWeek = none ∧
    (enrichRow DEFAULT_CATEGORY_MAP rawBadDate).weekNumber = none ∧
    (enrichRow DEFAULT_CATEGORY_MAP rawBadDate).isWeekend = false ∧
    (enrichRow DEFAULT_CATEGORY_MAP rawBadDate).dayType = "Weekday" ∧
    (enrichRow DEFAULT_CATEGORY_MAP rawBadDate).month = none :=
  C6_null_date_defaults DEFAULT_CATEGORY_MAP rawBadDate (by decide)

/-- Claim C10 counterexample: with the month omitted and the Python None
dataframe, weekend_vs_weekday_spend raises an AttributeError instead of
returning the zeroed result the claim asserts. -/
theorem C10_counterexample :
    weekend_vs_weekday_spend none none =
      .error (.attributeError "NoneType object has no attribute groupby") ∧
    weekend_vs_weekday_spend none none ≠
      .ok { weekend := 0, weekday := 0, dominant := "Weekday" } := by
  constructor <;> decide

/-- Claim C10 amended: with the month omitted no validation runs: an empty
dataframe returns zeros with dominant Weekday without raising, the Python
None dataframe raises an AttributeError, and whenever the function returns,
dominant is Weekend exactly when the weekend total strictly exceeds the
weekday total, with Weekday on an exact tie. -/
theorem C10_no_month_behaviour :
    weekend_vs_weekday_spend (some []) none =
      .ok { weekend := 0, weekday := 0, dominant := "Weekday" } ∧
    weekend_vs_weekday_spend none none =
      .error (.attributeError "NoneType object has no attribute groupby") ∧
    (∀ (df : Option (List Row)) (month : Option String) (w : WWSpend),
      weekend_vs_weekday_spend df month = .ok w →
        (w.weekend > w.weekday → w.dominant = "Weekend") ∧
        (w.weekend ≤ w.weekday → w.dominant = "Weekday")) := by
  refine ⟨by decide, by decide, ?_⟩
  intro df month w h
  have hd := ww_dominant_eq df month w h
  constructor
  · intro hgt
    rw [hd, if_pos hgt]
  · intro hle
    rw [hd, if_neg (not_lt.mpr hle)]

/-- Witness for claim C10, applying the dominant rule to the empty-frame
result. -/
theorem C10_witness :
    ({ weekend := 0, weekday := 0, dominant := "Weekday" } : WWSpend).dominant =
      "Weekday" :=
  (C10_no_month_behaviour.2.2 (some []) none _ C10_no_month_behaviour.1).2 (le_refl 0)

/-- Claim C2 counterexample: the single-digit-day line of the claim fails
the stage-1 coarse regex, which demands two day digits, even though stage 2
matches it, so extraction of that line produces no record. -/
theorem C2_counterexample :
    stage1 "Jan 5, 2025 Paid to Swiggy Order DEBIT ₹500".data = false ∧
    stage2 "Jan 5, 2025 Paid to Swiggy Order DEBIT ₹500".data =
      some ("Jan 5, 2025", "Swiggy Order", "DEBIT", "500") ∧
    pdf_to_csv [["Jan 5, 2025 Paid to Swiggy Order DEBIT ₹500"]] = .ok [] := by
  refine ⟨by decide, by decide, by decide⟩

/-- Claim C9 counterexample: a line matching both stages whose amount
capture is a lone comma makes the float conversion raise, so extraction
aborts with a ValueError instead of never raising. -/
theorem C9_counterexample :
    pdf_to_csv [["Jan 15, 2025 Paid to Shop DEBIT ₹,"]] =
      .error (.valueError "could not convert string to float") := by decide

/-- Claim C1 (code bug evidence): the month filter compares only the
YYYY-MM period string, so the derived Mon-YYYY label that the docstring
admits and that the dashboard passes never matches: the same dataset
answers under 2025-01 and raises under Jan-2025 although that month is
present. -/
theorem C1_month_label_mismatch :
    rowSwiggy.month = some "Jan-2025" ∧
    monthLabel ⟨2025, 1, 5⟩ = "Jan-2025" ∧
    total_spend_in_month (some [rowSwiggy]) "2025-01" = .ok 500 ∧
    total_spend_in_month (some [rowSwiggy]) "Jan-2025" =
      .error (.valueError "No data available for month: Jan-2025") := by
  refine ⟨by decide, by decide, ?_, by decide⟩
  have hf : _filter_by_month (some [rowSwiggy]) "2025-01" = .ok [rowSwiggy] := by decide
  simp only [total_spend_in_month, Bind.bind, Except.bind]
  rw [hf]
  simp [rowSwiggy, pure, Except.pure]

/-- Claim C4: whenever the month filter selects no rows, every month-scoped
insight query returns the no-data ValueError naming the requested month (the
NoDataForPeriod of the error taxonomy) and hence never a zeroed result; and a
null or empty dataframe makes every such query raise the validation error
instead. -/
theorem C4_no_data_errors (df : Option (List Row)) (month : String) :
    (∀ rows, df = some rows → rows ≠ [] →
      rows.filter (fun r => month_key r == month) = [] →
        total_spend_in_month df month =
          .error (.valueError ("No data available for month: " ++ month)) ∧
        transaction_count_in_month df month =
          .error (.valueError ("No data available for month: " ++ month)) ∧
        average_transaction_in_month df month =
          .error (.valueError ("No data available for month: " ++ month)) ∧
        top_merchant_in_month df month =
          .error (.valueError ("No data available for month: " ++ month)) ∧
        top_category_in_month df month =
          .error (.valueError ("No data available for month: " ++ month)) ∧
        highest_spending_week_in_month df month =
          .error (.valueError ("No data available for month: " ++ month)) ∧
        (month ≠ "" → weekend_vs_weekday_spend df (some month) =
          .error (.valueError ("No data available for month: " ++ month)))) ∧
    ((df = none ∨ df = some []) →
        total_spend_in_month df month =
          .error (.valueError "Input DataFrame is empty or None.") ∧
        transaction_count_in_month df month =
          .error (.valueError "Input DataFrame is empty or None.") ∧
        average_transaction_in_month df month =
          .error (.valueError "Input DataFrame is empty or None.") ∧
        top_merchant_in_month df month =
          .error (.valueError "Input DataFrame is empty or None.") ∧
        top_category_in_month df month =
          .error (.valueError "Input DataFrame is empty or None.") ∧
        highest_spending_week_in_month df month =
          .error (.valueError "Input DataFrame is empty or None.") ∧
        (month ≠ "" → weekend_vs_weekday_spend df (some month) =
          .error (.valueError "Input DataFrame is empty or None."))) := by
  constructor
  · intro rows hdf hne hfil
    subst hdf
    have hv : _validate_df (some rows) = .ok rows := by
      cases rows with
      | nil => exact absurd rfl hne
      | cons a t => rfl
    have hf : _filter_by_month (some rows) month =
        .error (.valueError ("No data available for month: " ++ month)) := by
      simp [_filter_by_month, hv, hfil, Bind.bind, Except.bind]
    refine ⟨?_, ?_, ?_, ?_, ?_, ?_, ?_⟩
    · simp [total_spend_in_month, hf, Bind.bind, Except.bind]
    · simp [transaction_count_in_month, hf, Bind.bind, Except.bind]
    · simp [average_transaction_in_month, hf, Bind.bind, Except.bind]
    · simp [top_merchant_in_month, hf, Bind.bind, Except.bind]
    · simp [top_category_in_month, hf, Bind.bind, Except.bind]
    · simp [highest_spending_week_in_month, hf, Bind.bind, Except.bind]
    · intro hm
      simp [weekend_vs_weekday_spend, hm, hf, Bind.bind, Except.bind]
  · intro hdf
    have hv : _validate_df df =
        .error (.valueError "Input DataFrame is empty or None.") := by
      rcases hdf with rfl | rfl <;> rfl
    have hf : _filter_by_month df month =
        .error (.valueError "Input DataFrame is empty or None.") := by
      simp [_filter_by_month, hv, Bind.bind, Except.bind]
    refine ⟨?_, ?_, ?_, ?_, ?_, ?_, ?_⟩
    · simp [total_spend_in_month, hf, Bind.bind, Except.bind]
    · simp [transaction_count_in_month, hf, Bind.bind, Except.bind]
    · simp [average_transaction_in_month, hf, Bind.bind, Except.bind]
    · simp [top_merchant_in_month, hf, Bind.bind, Except.bind]
    · simp [top_category_in_month, hf, Bind.bind, Except.bind]
    · simp [highest_spending_week_in_month, hf, Bind.bind, Except.bind]
    · intro hm
      simp [weekend_vs_weekday_spend, hm, hf, Bind.bind, Except.bind]

/-- Witness for claim C4: the Swiggy dataset holds no 1999-01 rows, so the
total-spend query raises the no-data error there. -/
theorem C4_witness :
    total_spend_in_month (some [rowSwiggy]) "1999-01" =
      .error (.valueError "No data available for month: 1999-01") :=
  ((C4_no_data_errors (some [rowSwiggy]) "1999-01").1 [rowSwiggy] rfl
    (by decide) (by decide)).1

/-! ### Partition lemmas for the grouped sum -/

lemma keySum_nil (key : Row → String) (k : String) :
    keySum (fun x => some (key x)) k [] = 0 := by
  simp [keySum]

lemma keySum_cons (key : Row → String) (k : String) (r : Row) (rows : List Row) :
    keySum (fun x => some (key x)) k (r :: rows) =
      (if key r = k then r.amount else 0) + keySum (fun x => some (key x)) k rows := by
  unfold keySum
  rw [List.filter_cons]
  by_cases h : key r = k
  · simp [h]
  · simp [h]

lemma sum_ite_not_mem (x : String) (a : ℚ) (f : String → ℚ) :
    ∀ (K : List String), x ∉ K →
      (K.map fun k => (if x = k then a else 0) + f k).sum = (K.map f).sum := by
  intro K
  induction K with
  | nil => simp
  | cons k0 t ih =>
    intro hx
    have hne : x ≠ k0 := fun h => hx (h ▸ List.mem_cons_self k0 t)
    simp only [List.map_cons, List.sum_cons, if_neg hne, zero_add]
    rw [ih fun h => hx (List.mem_cons_of_mem _ h)]

lemma sum_ite_mem (x : String) (a : ℚ) (f : String → ℚ) :
    ∀ (K : List String), K.Nodup → x ∈ K →
      (K.map fun k => (if x = k then a else 0) + f k).sum = a + (K.map f).sum := by
  intro K
  induction K with
  | nil => intro _ h; simp at h
  | cons k0 t ih =>
    intro hnd hx
    rw [List.nodup_cons] at hnd
    obtain ⟨hk0, hndt⟩ := hnd
    rcases List.mem_cons.mp hx with rfl | hxt
    · simp only [List.map_cons, List.sum_cons]
      rw [sum_ite_not_mem x a f t hk0]
      simp only [if_true, eq_self_iff_true, ite_true]
      ring
    · have hne : x ≠ k0 := fun h => hk0 (h ▸ hxt)
      simp only [List.map_cons, List.sum_cons, if_neg hne, zero_add]
      rw [ih hndt hxt]
      ring

lemma sum_keySum (key : Row → String) :
    ∀ (rows : List Row) (K : List String), K.Nodup → (∀ r ∈ rows, key r ∈ K) →
      (K.map fun k => keySum (fun x => some (key x)) k rows).sum =
        (rows.map Row.amount).sum := by
  intro rows
  induction rows with
  | nil =>
    intro K _ _
    simp only [keySum_nil, List.map_nil, List.sum_nil]
    exact List.sum_eq_zero (by simp)
  | cons r rows ih =>
    intro K hK hcov
    have hx : key r ∈ K := hcov r (List.mem_cons_self r rows)
    simp only [keySum_cons]
    rw [sum_ite_mem (key r) r.amount _ K hK hx]
    rw [ih K hK fun q hq => hcov q (List.mem_cons_of_mem _ hq)]
    simp

/-- Claim C3: for every nonempty dataset, summing the grouped sums of
aggregate_data over Category equals the dataset total: every row carries a
category string, so the category groups partition the rows (the empty or
null dataframe instead raises the validation error, per the error design). -/
theorem C3_category_sum_partition (rows : List Row) (hne : rows ≠ []) :
    ∃ grp, aggregate_data (some rows) "Category" "sum" = .ok grp ∧
      (grp.map Prod.snd).sum = (rows.map Row.amount).sum := by
  refine ⟨groupbySum pyStrLe (fun r => some r.category) rows, ?_, ?_⟩
  · have hv : _validate_df (some rows) = .ok rows := by
      cases rows with
      | nil => exact absurd rfl hne
      | cons a t => rfl
    simp [aggregate_data, hv, colKey, Bind.bind, Except.bind, pure, Except.pure]
  · have h1 : (groupbySum pyStrLe (fun r => some r.category) rows).map Prod.snd =
        (groupKeys pyStrLe (fun r => some r.category) rows).map
          fun k => keySum (fun r => some r.category) k rows := by
      unfold groupbySum
      rw [List.map_map]
      rfl
    rw [h1]
    have hfm : rows.filterMap (fun r => some r.category) = rows.map Row.category :=
      List.filterMap_eq_map Row.category ▸ rfl
    have hperm : List.Perm (groupKeys pyStrLe (fun r => some r.category) rows)
        ((rows.map Row.category).dedup) := by
      unfold groupKeys
      rw [hfm]
      exact perm_sortLe _ _
    rw [(hperm.map fun k => keySum (fun r => some r.category) k rows).sum_eq]
    exact sum_keySum Row.category rows ((rows.map Row.category).dedup)
      (List.nodup_dedup _) fun r hr => List.mem_dedup.mpr (List.mem_map_of_mem _ hr)

/-- Witness for claim C3 at the one-row Swiggy dataset. -/
theorem C3_witness :
    ∃ grp, aggregate_data (some [rowSwiggy]) "Category" "sum" = .ok grp ∧
      (grp.map Prod.snd).sum = ([rowSwiggy].map Row.amount).sum :=
  C3_category_sum_partition [rowSwiggy] (by decide)

/-! ### Specification of the top-entity queries -/

lemma topEntity_spec (key : Row → String) (mdf : List Row) (m : String) (a : ℚ)
    (h : idxmax (groupbySum pyStrLe (fun r => some (key r)) mdf) = some (m, a)) :
    m ∈ mdf.map key ∧ a = keySum (fun r => some (key r)) m mdf ∧
    (∀ k ∈ mdf.map key, keySum (fun r => some (key r)) k mdf ≤ a) ∧
    (∀ k ∈ mdf.map key, keySum (fun r => some (key r)) k mdf = a →
      pyStrLe m k = true) := by
  have hpair := groupbySum_pairwise key mdf
  obtain ⟨hmem, hmax, htie⟩ := idxmax_spec pyStrLe pyStrLe_refl _ hpair (m, a) h
  have hfm : mdf.filterMap (fun r => some (key r)) = mdf.map key :=
    List.filterMap_eq_map key ▸ rfl
  have hkeys : ∀ k, k ∈ groupKeys pyStrLe (fun r => some (key r)) mdf ↔
      k ∈ mdf.map key := by
    intro k
    rw [mem_groupKeys, hfm]
  unfold groupbySum at hmem hmax htie
  obtain ⟨k0, hk0, heq⟩ := List.mem_map.mp hmem
  have h1 : k0 = m := congrArg Prod.fst heq
  subst h1
  have h2 : keySum (fun r => some (key r)) k0 mdf = a := congrArg Prod.snd heq
  refine ⟨(hkeys k0).mp hk0, h2.symm, ?_, ?_⟩
  · intro k hk
    have hkg := (hkeys k).mpr hk
    have hmm : (k, keySum (fun r => some (key r)) k mdf) ∈
        (groupKeys pyStrLe (fun r => some (key r)) mdf).map
          fun k => (k, keySum (fun r => some (key r)) k mdf) :=
      List.mem_map_of_mem _ hkg
    exact hmax _ hmm
  · intro k hk hkv
    have hkg := (hkeys k).mpr hk
    have hmm : (k, keySum (fun r => some (key r)) k mdf) ∈
        (groupKeys pyStrLe (fun r => some (key r)) mdf).map
          fun k => (k, keySum (fun r => some (key r)) k mdf) :=
      List.mem_map_of_mem _ hkg
    exact htie _ hmm hkv

/-- Claim C5 counterexample: in a month whose tied merchants appear in
dataset order b then a, top_merchant_in_month returns a, the
lexicographically least merchant, not the first-encountered b, so ties are
not broken by first-encountered order. -/
theorem C5_counterexample :
    [rowTieB, rowTieA].map Row.merchant = ["b", "a"] ∧
    keySum (fun r => some r.merchant) "b" [rowTieB, rowTieA] = 10 ∧
    keySum (fun r => some r.merchant) "a" [rowTieB, rowTieA] = 10 ∧
    top_merchant_in_month (some [rowTieB, rowTieA]) "2025-01" = .ok ("a", 10) := by
  have hsb : keySum (fun r => some r.merchant) "b" [rowTieB, rowTieA] = 10 := by
    simp +decide [keySum, rowTieB, rowTieA]
  have hsa : keySum (fun r => some r.merchant) "a" [rowTieB, rowTieA] = 10 := by
    simp +decide [keySum, rowTieB, rowTieA]
  refine ⟨by decide, hsb, hsa, ?_⟩
  have hf : _filter_by_month (some [rowTieB, rowTieA]) "2025-01" =
      .ok [rowTieB, rowTieA] := by decide
  have hkeys : groupKeys pyStrLe (fun r => some r.merchant) [rowTieB, rowTieA] =
      ["a", "b"] := by decide
  have hgrp : groupbySum pyStrLe (fun r => some r.merchant) [rowTieB, rowTieA] =
      [("a", 10), ("b", 10)] := by
    unfold groupbySum
    rw [hkeys]
    simp [hsa, hsb]
  have hidx : idxmax [("a", (10 : ℚ)), ("b", 10)] = some ("a", 10) := by
    norm_num [idxmax]
  simp only [top_merchant_in_month, Bind.bind, Except.bind]
  simp only [hf, hgrp, hidx, pure, Except.pure]

/-- Claim C5 amended: top_merchant_in_month returns a merchant attaining
the maximum per-merchant summed Amount over the month-filtered rows,
together with that maximum sum; among tied merchants the lexicographically
least merchant name is returned (groupby sorts the keys and idxmax takes
the first maximum in sorted order), not the first-encountered one; and
top_category_in_month behaves the same way over Category. -/
theorem C5_top_entities (rows mdf : List Row) (month : String)
    (hf : _filter_by_month (some rows) month = .ok mdf) :
    (∀ m a, top_merchant_in_month (some rows) month = .ok (m, a) →
      m ∈ mdf.map Row.merchant ∧
      a = keySum (fun r => some r.merchant) m mdf ∧
      (∀ k ∈ mdf.map Row.merchant, keySum (fun r => some r.merchant) k mdf ≤ a) ∧
      (∀ k ∈ mdf.map Row.merchant,
        keySum (fun r => some r.merchant) k mdf = a → pyStrLe m k = true)) ∧
    (∀ c a, top_category_in_month (some rows) month = .ok (c, a) →
      c ∈ mdf.map Row.category ∧
      a = keySum (fun r => some r.category) c mdf ∧
      (∀ k ∈ mdf.map Row.category, keySum (fun r => some r.category) k mdf ≤ a) ∧
      (∀ k ∈ mdf.map Row.category,
        keySum (fun r => some r.category) k mdf = a → pyStrLe c k = true)) := by
  constructor
  · intro m a h
    simp only [top_merchant_in_month, Bind.bind, Except.bind, hf] at h
    rcases hidx : idxmax (groupbySum pyStrLe (fun r => some r.merchant) mdf)
      with _ | p
    · rw [hidx] at h
      simp at h
    · rw [hidx] at h
      simp only [pure, Except.pure, Except.ok.injEq] at h
      subst h
      exact topEntity_spec Row.merchant mdf m a hidx
  · intro c a h
    simp only [top_category_in_month, Bind.bind, Except.bind, hf] at h
    rcases hidx : idxmax (groupbySum pyStrLe (fun r => some r.category) mdf)
      with _ | p
    · rw [hidx] at h
      simp at h
    · rw [hidx] at h
      simp only [pure, Except.pure, Except.ok.injEq] at h
      subst h
      exact topEntity_spec Row.category mdf c a hidx

/-- Witness for claim C5: the tie dataset instantiates the amended
statement, with the returned merchant a being lexicographically least among
the tied merchants. -/
theorem C5_witness :
    "a" ∈ [rowTieB, rowTieA].map Row.merchant ∧
    (10 : ℚ) = keySum (fun r => some r.merchant) "a" [rowTieB, rowTieA] ∧
    (∀ k ∈ [rowTieB, rowTieA].map Row.merchant,
      keySum (fun r => some r.merchant) k [rowTieB, rowTieA] ≤ 10) ∧
    (∀ k ∈ [rowTieB, rowTieA].map Row.merchant,
      keySum (fun r => some r.merchant) k [rowTieB, rowTieA] = 10 →
        pyStrLe "a" k = true) := by
  have hsb : keySum (fun r => some r.merchant) "b" [rowTieB, rowTieA] = 10 := by
    simp +decide [keySum, rowTieB, rowTieA]
  have hsa : keySum (fun r => some r.merchant) "a" [rowTieB, rowTieA] = 10 := by
    simp +decide [keySum, rowTieB, rowTieA]
  have hf : _filter_by_month (some [rowTieB, rowTieA]) "2025-01" =
      .ok [rowTieB, rowTieA] := by decide
  have htop : top_merchant_in_month (some [rowTieB, rowTieA]) "2025-01" =
      .ok ("a", 10) := by
    have hkeys : groupKeys pyStrLe (fun r => some r.merchant) [rowTieB, rowTieA] =
        ["a", "b"] := by decide
    have hgrp : groupbySum pyStrLe (fun r => some r.merchant) [rowTieB, rowTieA] =
        [("a", 10), ("b", 10)] := by
      unfold groupbySum
      rw [hkeys]
      simp [hsa, hsb]
    have hidx : idxmax [("a", (10 : ℚ)), ("b", 10)] = some ("a", 10) := by
      norm_num [idxmax]
    simp only [top_merchant_in_month, Bind.bind, Except.bind]
    simp only [hf, hgrp, hidx, pure, Except.pure]
  exact (C5_top_entities [rowTieB, rowTieA] [rowTieB, rowTieA] "2025-01" hf).1
    "a" 10 htop

/-- Claim C2 amended: the stage-1 coarse filter accepts a line exactly when
it begins with an alphabetic token of three or four letters followed by one
whitespace character and two digits; a line starting with the literal Page
never produces a record; the single-digit-day line of the claim fails
stage 1; and its zero-padded form passes both stages and yields the
expected record. -/
theorem C2_stage1_two_digits :
    (∀ l : List Char, stage1 l = true ↔ stage1Shape l) ∧
    (∀ line : String, litPrefix "Page".data line.data = true →
      lineCapture line = none) ∧
    stage1 "Jan 5, 2025 Paid to Swiggy Order DEBIT ₹500".data = false ∧
    pdf_to_csv [["Jan 05, 2025 Paid to Swiggy Order DEBIT ₹500"]] =
      .ok [{ date := "Jan 05, 2025", merchant := "Swiggy Order",
             txnType := "DEBIT", amount := 500 }] := by
  refine ⟨?_, ?_, by decide, ?_⟩
  · intro l
    constructor
    · intro h
      rcases l with _ | ⟨c1, _ | ⟨c2, _ | ⟨c3, _ | ⟨c4, _ | ⟨c5, _ | ⟨c6, rest⟩⟩⟩⟩⟩⟩
      · simp [stage1, stage1Branch3, stage1Branch4] at h
      · simp [stage1, stage1Branch3, stage1Branch4] at h
      · simp [stage1, stage1Branch3, stage1Branch4] at h
      · simp [stage1, stage1Branch3, stage1Branch4] at h
      · simp [stage1, stage1Branch3, stage1Branch4] at h
      · simp [stage1, stage1Branch3, stage1Branch4] at h
      · rcases rest with _ | ⟨c7, rest2⟩
        · simp only [stage1, stage1Branch3, stage1Branch4, Bool.or_eq_true,
            Bool.and_eq_true] at h
          rcases h with h | h
          · exact absurd h (by simp)
          · obtain ⟨⟨⟨⟨⟨h1, h2⟩, h3⟩, hs⟩, hd1⟩, hd2⟩ := h
            exact Or.inl ⟨c1, c2, c3, c4, c5, c6, [], rfl, h1, h2, h3, hs, hd1, hd2⟩
        · simp only [stage1, stage1Branch3, stage1Branch4, Bool.or_eq_true,
            Bool.and_eq_true] at h
          rcases h with h | h
          · obtain ⟨⟨⟨⟨⟨⟨h1, h2⟩, h3⟩, h4⟩, hs⟩, hd1⟩, hd2⟩ := h
            exact Or.inr
              ⟨c1, c2, c3, c4, c5, c6, c7, rest2, rfl, h1, h2, h3, h4, hs, hd1, hd2⟩
          · obtain ⟨⟨⟨⟨⟨h1, h2⟩, h3⟩, hs⟩, hd1⟩, hd2⟩ := h
            exact Or.inl
              ⟨c1, c2, c3, c4, c5, c6, c7 :: rest2, rfl, h1, h2, h3, hs, hd1, hd2⟩
    · intro h
      rcases h with ⟨c1, c2, c3, s, d1, d2, rest, rfl, h1, h2, h3, hs, hd1, hd2⟩ |
        ⟨c1, c2, c3, c4, s, d1, d2, rest, rfl, h1, h2, h3, h4, hs, hd1, hd2⟩
      · simp [stage1, stage1Branch3, h1, h2, h3, hs, hd1, hd2]
      · simp [stage1, stage1Branch4, h1, h2, h3, h4, hs, hd1, hd2]
  · intro line h
    simp [lineCapture, h]
  · have hcap : lineCapture "Jan 05, 2025 Paid to Swiggy Order DEBIT ₹500" =
        some ("Jan 05, 2025", "Swiggy Order", "DEBIT", "500") := by decide
    have hfil : ("500".data.filter fun c => c ≠ ',') = ['5', '0', '0'] := by decide
    have d1 : digitsVal ['5', '0', '0'] = 500 := by decide
    have hp : pyFloat ("500".data.filter fun c => c ≠ ',') = some 500 := by
      rw [hfil]
      simp +decide [pyFloat, d1]
    have hm : (⟨pyStrip "Swiggy Order".data⟩ : String) = "Swiggy Order" := by decide
    have hb : buildTxn ("Jan 05, 2025", "Swiggy Order", "DEBIT", "500") =
        .ok { date := "Jan 05, 2025", merchant := "Swiggy Order",
              txnType := "DEBIT", amount := 500 } := by
      simp only [buildTxn, hp, hm]
    simp [pdf_to_csv, List.foldlM, scanLine, hcap, hb, Bind.bind, Except.bind,
      pure, Except.pure]

/-- Witness for claim C2: a Page footer line yields no record. -/
theorem C2_witness : lineCapture "Page 12" = none :=
  C2_stage1_two_digits.2.1 "Page 12" (by decide)

/-! ### Extraction safety lemmas -/

lemma amountTail_chars (t0 : String) (r : List Char) (t a : String)
    (h : amountTail t0 r = some (t, a)) :
    ∀ c ∈ a.data, isAsciiDigit c = true ∨ c = ',' := by
  simp only [amountTail] at h
  by_cases h1 : (r.dropWhile isPySpace).head? = some '₹'
  · rw [if_pos h1] at h
    by_cases h2 : ((r.dropWhile isPySpace).tail.takeWhile
        fun c => isAsciiDigit c || c = ',') = []
    · rw [if_pos h2] at h
      exact absurd h (by simp)
    · rw [if_neg h2] at h
      have ha := congrArg Prod.snd (Option.some.inj h)
      subst ha
      intro c hc
      simpa using List.mem_takeWhile_imp hc
  · rw [if_neg h1] at h
    exact absurd h (by simp)

lemma restMatch_chars (l : List Char) (t a : String) (h : restMatch l = some (t, a)) :
    ∀ c ∈ a.data, isAsciiDigit c = true ∨ c = ',' := by
  cases l with
  | nil => simp [restMatch] at h
  | cons c cs =>
    simp only [restMatch] at h
    by_cases h1 : isPySpace c = true
    · rw [if_pos h1] at h
      by_cases h2 : litPrefix "DEBIT".data ((c :: cs).dropWhile isPySpace) = true
      · rw [if_pos h2] at h
        exact amountTail_chars _ _ _ _ h
      · rw [if_neg h2] at h
        by_cases h3 : litPrefix "CREDIT".data ((c :: cs).dropWhile isPySpace) = true
        · rw [if_pos h3] at h
          exact amountTail_chars _ _ _ _ h
        · rw [if_neg h3] at h
          exact absurd h (by simp)
    · rw [if_neg h1] at h
      exact absurd h (by simp)

lemma scanMerchant_chars :
    ∀ (l acc : List Char) (m t a : String), scanMerchant acc l = some (m, t, a) →
      ∀ c ∈ a.data, isAsciiDigit c = true ∨ c = ',' := by
  intro l
  induction l with
  | nil => intro acc m t a h; simp [scanMerchant] at h
  | cons c cs ih =>
    intro acc m t a h
    simp only [scanMerchant] at h
    by_cases hnl : c = '\n'
    · rw [if_pos hnl] at h
      exact absurd h (by simp)
    · rw [if_neg hnl] at h
      cases hrm : restMatch cs with
      | some p =>
        obtain ⟨t1, a1⟩ := p
        simp only [hrm] at h
        have ha : a1 = a := congrArg (fun q => q.2.2) (Option.some.inj h)
        subst ha
        exact restMatch_chars cs t1 a1 hrm
      | none =>
        simp only [hrm] at h
        exact ih (acc ++ [c]) m t a h

lemma stage2_chars (l : List Char) (cap : String × String × String × String)
    (h : stage2 l = some cap) :
    ∀ c ∈ cap.2.2.2.data, isAsciiDigit c = true ∨ c = ',' := by
  obtain ⟨d0, m0, t0, a0⟩ := cap
  cases hgp : matchGplus l with
  | none => simp [stage2, hgp, Bind.bind, Option.bind] at h
  | some pr =>
    obtain ⟨ds, r1⟩ := pr
    cases r1 with
    | nil => simp [stage2, hgp, Bind.bind, Option.bind] at h
    | cons s r2 =>
      simp only [stage2, hgp, Bind.bind, Option.bind] at h
      by_cases hsp : isPySpace s = true
      · rw [if_pos hsp] at h
        by_cases hpt : litPrefix "Paid to ".data r2 = true
        · rw [if_pos hpt] at h
          cases hsc : scanMerchant [] (r2.drop 8) with
          | none =>
            simp only [hsc] at h
            exact absurd h (by simp)
          | some q =>
            obtain ⟨m1, t1, a1⟩ := q
            simp only [hsc] at h
            have ha : a1 = a0 := congrArg (fun p => p.2.2.2) (Option.some.inj h)
            subst ha
            exact scanMerchant_chars (r2.drop 8) [] m1 t1 a1 hsc
        · rw [if_neg hpt] at h
          exact absurd h (by simp)
      · rw [if_neg hsp] at h
        exact absurd h (by simp)

lemma lineCapture_chars (line : String) (cap : String × String × String × String)
    (h : lineCapture line = some cap) :
    ∀ c ∈ cap.2.2.2.data, isAsciiDigit c = true ∨ c = ',' := by
  unfold lineCapture at h
  by_cases hc : (stage1 line.data && !litPrefix "Page".data line.data) = true
  · rw [if_pos hc] at h
    exact stage2_chars _ _ h
  · rw [if_neg hc] at h
    exact absurd h (by simp)

lemma pyFloat_digits (ds : List Char) (hne : ds ≠ [])
    (hall : ∀ c ∈ ds, isAsciiDigit c = true) : ∃ q, pyFloat ds = some q := by
  have hneg : (ds.head? == some '-') = false := by
    cases ds with
    | nil => exact absurd rfl hne
    | cons c cs =>
      have hc := hall c (List.mem_cons_self c cs)
      have hcm : c ≠ '-' := by
        intro hcc
        rw [hcc] at hc
        exact absurd hc (by decide)
      simp [hcm]
  have h1 : ds.all (fun c => isAsciiDigit c || c = '.') = true := by
    rw [List.all_eq_true]
    intro c hc
    simp [hall c hc]
  have h2 : ((ds.filter (fun c => c = '.')).length ≤ 1) := by
    have hfil : (ds.filter fun c => decide (c = '.')) = [] := by
      rw [List.filter_eq_nil_iff]
      intro c hc
      have hd := hall c hc
      simp only [decide_eq_true_eq]
      intro hcc
      rw [hcc] at hd
      exact absurd hd (by decide)
    rw [hfil]
    simp
  have h3 : ds.any isAsciiDigit = true := by
    cases ds with
    | nil => exact absurd rfl hne
    | cons c cs => simp [List.any_cons, hall c (List.mem_cons_self c cs)]
  have hcond : (ds.all (fun c => isAsciiDigit c || c = '.')
      && ((ds.filter (fun c => c = '.')).length ≤ 1)
      && ds.any isAsciiDigit) = true := by
    simp only [Bool.and_eq_true]
    refine ⟨⟨h1, ?_⟩, h3⟩
    simpa using h2
  cases hpf : pyFloat ds with
  | some q => exact ⟨q, rfl⟩
  | none =>
    exfalso
    simp only [pyFloat] at hpf
    rw [hneg] at hpf
    simp only [Bool.false_eq_true, if_false] at hpf
    rw [hcond, if_pos rfl] at hpf
    exact Option.noConfusion hpf

lemma buildTxn_ok (cap : String × String × String × String)
    (h : ∃ q, pyFloat (cap.2.2.2.data.filter fun c => c ≠ ',') = some q) :
    buildTxn cap = .ok (txnOfCap cap) := by
  obtain ⟨d0, m0, t0, a0⟩ := cap
  obtain ⟨q, hq⟩ := h
  simp only [buildTxn, txnOfCap, hq]
  simp

lemma scanLine_fold (lines : List String) :
    ∀ acc : List Txn,
      (∀ line ∈ lines, ∀ cap, lineCapture line = some cap →
        (cap.2.2.2.data.filter fun c => c ≠ ',') ≠ []) →
      lines.foldlM scanLine acc =
        .ok (acc ++ lines.filterMap fun line => (lineCapture line).map txnOfCap) := by
  induction lines with
  | nil => intro acc _; simp [pure, Except.pure]
  | cons line rest ih =>
    intro acc hh
    rw [List.foldlM_cons]
    cases hcap : lineCapture line with
    | none =>
      have hs : scanLine acc line = .ok acc := by
        simp [scanLine, hcap, pure, Except.pure]
      rw [hs]
      simp only [Bind.bind, Except.bind]
      rw [ih acc fun l hl cap hc => hh l (List.mem_cons_of_mem _ hl) cap hc]
      simp [List.filterMap_cons, hcap]
    | some cap =>
      have hd : (cap.2.2.2.data.filter fun c => c ≠ ',') ≠ [] :=
        hh line (List.mem_cons_self line rest) cap hcap
      have hchars := lineCapture_chars line cap hcap
      have hdig : ∀ c ∈ cap.2.2.2.data.filter (fun c => c ≠ ','),
          isAsciiDigit c = true := by
        intro c hc
        obtain ⟨hcm, hcne⟩ := List.mem_filter.mp hc
        rcases hchars c hcm with h | h
        · exact h
        · exact absurd h (by simpa using hcne)
      have hb : buildTxn cap = .ok (txnOfCap cap) :=
        buildTxn_ok cap (pyFloat_digits _ hd hdig)
      have hs : scanLine acc line = .ok (acc ++ [txnOfCap cap]) := by
        simp [scanLine, hcap, hb, Bind.bind, Except.bind, pure, Except.pure]
      rw [hs]
      simp only [Bind.bind, Except.bind]
      rw [ih (acc ++ [txnOfCap cap]) fun l hl cap hc =>
        hh l (List.mem_cons_of_mem _ hl) cap hc]
      simp [List.filterMap_cons, hcap, List.append_assoc]

lemma pages_fold (pages : List (List String)) :
    ∀ acc : List Txn,
      (∀ page ∈ pages, ∀ line ∈ page, ∀ cap, lineCapture line = some cap →
        (cap.2.2.2.data.filter fun c => c ≠ ',') ≠ []) →
      pages.foldlM (fun acc page => page.foldlM scanLine acc) acc =
        .ok (acc ++ (pages.map fun page =>
          page.filterMap fun line => (lineCapture line).map txnOfCap).flatten) := by
  induction pages with
  | nil => intro acc _; simp [pure, Except.pure]
  | cons page rest ih =>
    intro acc hh
    rw [List.foldlM_cons]
    rw [scanLine_fold page acc fun l hl cap hc =>
      hh page (List.mem_cons_self page rest) l hl cap hc]
    simp only [Bind.bind, Except.bind]
    rw [ih _ fun p hp l hl cap hc => hh p (List.mem_cons_of_mem _ hp) l hl cap hc]
    simp [List.append_assoc]

/-- Claim C9 amended: extraction never raises on any input in which every
line matching both stages carries at least one digit in its amount capture:
it returns exactly the records of the fully matched lines in encounter
order, each with its parsed amount, every other line silently dropped; in
particular the empty input yields the empty record list. A matching line
whose amount capture is all commas instead aborts with a ValueError. -/
theorem C9_no_raise :
    (∀ pages : List (List String),
      (∀ page ∈ pages, ∀ line ∈ page, ∀ cap, lineCapture line = some cap →
        (cap.2.2.2.data.filter fun c => c ≠ ',') ≠ []) →
      pdf_to_csv pages =
        .ok ((pages.map fun page =>
          page.filterMap fun line => (lineCapture line).map txnOfCap).flatten)) ∧
    pdf_to_csv [] = .ok [] := by
  constructor
  · intro pages hh
    unfold pdf_to_csv
    rw [pages_fold pages [] hh]
    simp
  · rfl

/-- Witness for claim C9 at the three-line specification example page: the
two matching lines yield records and the footer is dropped. -/
theorem C9_witness :
    pdf_to_csv [["Jan 05, 2025 Paid to Swiggy Order DEBIT ₹500",
                 "Jan 31, 2025 Paid to Salary Corp CREDIT ₹2,000",
                 "Page 2 of 3"]] =
      .ok (([["Jan 05, 2025 Paid to Swiggy Order DEBIT ₹500",
              "Jan 31, 2025 Paid to Salary Corp CREDIT ₹2,000",
              "Page 2 of 3"]].map fun page =>
        page.filterMap fun line => (lineCapture line).map txnOfCap).flatten) := by
  apply C9_no_raise.1
  intro page hp line hl cap hcap
  simp only [List.mem_singleton] at hp
  subst hp
  simp only [List.mem_cons, List.not_mem_nil, or_false] at hl
  rcases hl with rfl | rfl | rfl
  · have hc : lineCapture "Jan 05, 2025 Paid to Swiggy Order DEBIT ₹500" =
        some ("Jan 05, 2025", "Swiggy Order", "DEBIT", "500") := by decide
    rw [hc] at hcap
    obtain rfl := Option.some.inj hcap
    decide
  · have hc : lineCapture "Jan 31, 2025 Paid to Salary Corp CREDIT ₹2,000" =
        some ("Jan 31, 2025", "Salary Corp", "CREDIT", "2,000") := by decide
    rw [hc] at hcap
    obtain rfl := Option.some.inj hcap
    decide
  · have hc : lineCapture "Page 2 of 3" = none := by decide
    rw [hc] at hcap
    exact absurd hcap (by simp)
